import Mathlib

/-!
Shallow embedding of the Echo engine from `src/echo.py` and its CLI
entry point, with theorems settling the specification claims.

Python strings are modelled as Lean `String` (a sequence of code
points).  The mutable `Echo` object is modelled by explicit state
passing: every method returns its result together with the updated
engine.  Python exceptions are modelled with `Except`: a method that
can raise returns an `Except` value paired with the state it leaves
behind.  The filesystem consumed by `echo_file` is modelled as a
function from paths to `Option String` (`none` means the open/read
fails with `FileNotFoundError`/`IOError`).
-/

/-- Input accepted by `Echo.echo`: a plain string, or a list whose
items Python stringifies (`str(item)`); an absent item (`None`)
stringifies to the literal text "None". -/
inductive EchoInput where
  | str (s : String)
  | list (items : List (Option String))

/-- Python `str(item)` for an optional string item: `None` renders as
the literal "None". -/
def strOfItem : Option String → String
  | some s => s
  | none => "None"

/-- Python `sep.join(xs)`: elements of `xs` interleaved with `sep`. -/
def joinSep (sep : String) : List String → String
  | [] => ""
  | [x] => x
  | x :: y :: xs => x ++ sep ++ joinSep sep (y :: xs)

/-- Python code-point reversal `text[::-1]`. -/
def pyReverse (s : String) : String :=
  String.mk s.data.reverse

/-- The `Echo` object state: `prefix`/`suffix` (the first renamed
`pre` because `prefix` is reserved in Lean) and the `_history` list. -/
structure Echo where
  pre : String
  suffix : String
  history : List String

/-- `Echo.__init__`: a fresh engine with the given affixes and empty
history. -/
def Echo.construct (p s : String) : Echo :=
  { pre := p, suffix := s, history := [] }

/-- `Echo.echo`: join list input with single spaces (absent items as
"None"), wrap in prefix/suffix, and append the result to history when
`store_history` is true.  Returns the result and the updated engine. -/
def Echo.echo (e : Echo) (text : EchoInput) (store_history : Bool) :
    String × Echo :=
  let t : String :=
    match text with
    | .str s => s
    | .list items => joinSep " " (items.map strOfItem)
  let result := e.pre ++ t ++ e.suffix
  (result,
   if store_history then { e with history := e.history ++ [result] } else e)

/-- `Echo.echo_upper`: `self.echo(text.upper())`. -/
def Echo.echo_upper (e : Echo) (text : String) : String × Echo :=
  e.echo (.str text.toUpper) true

/-- `Echo.echo_lower`: `self.echo(text.lower())`. -/
def Echo.echo_lower (e : Echo) (text : String) : String × Echo :=
  e.echo (.str text.toLower) true

/-- `Echo.echo_reverse`: `self.echo(text[::-1])`. -/
def Echo.echo_reverse (e : Echo) (text : String) : String × Echo :=
  e.echo (.str (pyReverse text)) true

/-- `Echo.echo_repeat`: raise `ValueError` when `times < 0` (leaving
the object untouched); otherwise echo `separator.join([text] * times)`
with history recording. -/
def Echo.echo_repeat (e : Echo) (text : String) (times : Int)
    (separator : String) : Except String String × Echo :=
  if times < 0 then
    (.error "Repetition count must be non-negative", e)
  else
    let repeated := joinSep separator (List.replicate times.toNat text)
    let p := e.echo (.str repeated) true
    (.ok p.1, p.2)

/-- `Echo.get_history`: a copy of the history list (value semantics
make the defensive copy the list itself). -/
def Echo.get_history (e : Echo) : List String :=
  e.history

/-- `Echo.clear_history`: reset history to empty. -/
def Echo.clear_history (e : Echo) : Echo :=
  { e with history := [] }

/-- `Echo.echo_file`: read the file at `filepath` through the
filesystem `fs`; on success echo the full content (recording history),
on any read failure return `none` with the engine untouched. -/
def Echo.echo_file (e : Echo) (fs : String → Option String)
    (filepath : String) : Option String × Echo :=
  match fs filepath with
  | some content =>
      let p := e.echo (.str content) true
      (some p.1, p.2)
  | none => (none, e)

/-- CLI `main`: on empty argument list print a usage line and exit 1;
otherwise join the arguments with single spaces, echo through a
default-configured engine, print the result and exit 0.  Modelled as
the list of printed lines paired with the exit code. -/
def mainCli (args : List String) : List String × Nat :=
  if args = [] then
    (["Usage: echo.py <text>"], 1)
  else
    let e := Echo.construct "" ""
    let p := e.echo (.str (joinSep " " args)) true
    ([p.1], 0)

/-- One externally triggered operation on the engine, for stating the
history invariant across the whole public surface. -/
inductive Op where
  | opEcho (t : EchoInput) (store : Bool)
  | opUpper (t : String)
  | opLower (t : String)
  | opReverse (t : String)
  | opRepeat (t : String) (times : Int) (sep : String)
  | opFile (path : String)
  | opClear

/-- Whether an operation requests history storage (syntactically):
`echo` stores when asked, every derived transform always asks, and
`clear` never stores. -/
def Op.storeRequested : Op → Bool
  | .opEcho _ b => b
  | .opClear => false
  | _ => true

/-- Run one operation against the engine (with filesystem `fs`),
returning the string the call handed back to the caller (if any)
together with the updated engine. -/
def applyOp (fs : String → Option String) (op : Op) (e : Echo) :
    Option String × Echo :=
  match op with
  | .opEcho t b => let p := e.echo t b; (some p.1, p.2)
  | .opUpper t => let p := e.echo_upper t; (some p.1, p.2)
  | .opLower t => let p := e.echo_lower t; (some p.1, p.2)
  | .opReverse t => let p := e.echo_reverse t; (some p.1, p.2)
  | .opRepeat t n s =>
      match e.echo_repeat t n s with
      | (.ok r, e') => (some r, e')
      | (.error _, e') => (none, e')
  | .opFile path => e.echo_file fs path
  | .opClear => (none, e.clear_history)

/-- C1: `echo_file` is fail-soft: whenever the filesystem read fails
it returns `none`, raises nothing, and leaves the history untouched;
on success it returns the echo of the full content and records it. -/
theorem echo_file_fail_soft (e : Echo) (fs : String → Option String)
    (path : String) :
    (fs path = none → e.echo_file fs path = (none, e)) ∧
    (∀ content, fs path = some content →
      e.echo_file fs path =
        (some (e.pre ++ content ++ e.suffix),
         { e with history := e.history ++ [e.pre ++ content ++ e.suffix] })) := by
  constructor
  · intro h
    simp [Echo.echo_file, h]
  · intro c h
    simp [Echo.echo_file, h, Echo.echo]

/-- C1 witness: a missing file yields `none` with untouched state; a
readable file yields the echoed content, recorded. -/
theorem echo_file_fail_soft_witness :
    (Echo.construct "A" "B").echo_file (fun _ => none) "/nonexistent/path"
      = (none, Echo.construct "A" "B") ∧
    (Echo.construct "A" "B").echo_file (fun _ => some "hi") "f"
      = (some ("A" ++ "hi" ++ "B"),
         { pre := "A", suffix := "B", history := ["A" ++ "hi" ++ "B"] }) :=
  ⟨(echo_file_fail_soft (Echo.construct "A" "B") (fun _ => none)
      "/nonexistent/path").1 rfl,
   (echo_file_fail_soft (Echo.construct "A" "B") (fun _ => some "hi")
      "f").2 "hi" rfl⟩

/-- C2: across every public operation, history only grows — any
operation other than `clear_history` either leaves history unchanged
or appends exactly the string it returned while requesting storage —
and `clear_history` resets it so `get_history` returns `[]`. -/
theorem history_append_only (fs : String → Option String) (op : Op)
    (e : Echo) :
    match op with
    | .opClear =>
        (applyOp fs op e).2.history = [] ∧
        (applyOp fs op e).2.get_history = []
    | _ =>
        (applyOp fs op e).2.history = e.history ∨
        ∃ r, (applyOp fs op e).1 = some r ∧ op.storeRequested = true ∧
          (applyOp fs op e).2.history = e.history ++ [r] := by
  cases op with
  | opClear => exact ⟨rfl, rfl⟩
  | opEcho t b =>
      cases b with
      | false => left; simp [applyOp, Echo.echo]
      | true =>
          right
          exact ⟨_, rfl, rfl, by simp [applyOp, Echo.echo]⟩
  | opUpper t =>
      right
      exact ⟨_, rfl, rfl, by simp [applyOp, Echo.echo_upper, Echo.echo]⟩
  | opLower t =>
      right
      exact ⟨_, rfl, rfl, by simp [applyOp, Echo.echo_lower, Echo.echo]⟩
  | opReverse t =>
      right
      exact ⟨_, rfl, rfl, by simp [applyOp, Echo.echo_reverse, Echo.echo]⟩
  | opRepeat t n s =>
      by_cases h : n < 0
      · left; simp [applyOp, Echo.echo_repeat, h]
      · right
        refine ⟨(e.echo (.str (joinSep s (List.replicate n.toNat t)))
            true).1, ?_, rfl, ?_⟩ <;>
          simp [applyOp, Echo.echo_repeat, h, Echo.echo]
  | opFile path =>
      cases hfs : fs path with
      | none => left; simp [applyOp, Echo.echo_file, hfs]
      | some c =>
          right
          refine ⟨(e.echo (.str c) true).1, ?_, rfl, ?_⟩ <;>
            simp [applyOp, Echo.echo_file, hfs, Echo.echo]

/-- C3: for `times ≥ 0`, `echo_repeat` returns the prefix/suffix-
wrapped join of `times` copies of `text` with `sep` and records it;
for `times = 0` the joined part is empty. -/
theorem echo_repeat_nonneg (e : Echo) (text : String) (times : Int)
    (sep : String) (h : 0 ≤ times) :
    e.echo_repeat text times sep =
      (.ok (e.pre ++ joinSep sep (List.replicate times.toNat text)
              ++ e.suffix),
       { e with history := e.history ++
          [e.pre ++ joinSep sep (List.replicate times.toNat text)
             ++ e.suffix] }) ∧
    (times = 0 →
      e.echo_repeat text times sep =
        (.ok (e.pre ++ "" ++ e.suffix),
         { e with history := e.history ++ [e.pre ++ "" ++ e.suffix] })) := by
  have hnot : ¬ times < 0 := not_lt.2 h
  constructor
  · simp [Echo.echo_repeat, hnot, Echo.echo]
  · intro h0
    subst h0
    simp [Echo.echo_repeat, Echo.echo, joinSep]

/-- C3 witness: three copies joined by a dash, and the zero case. -/
theorem echo_repeat_nonneg_witness :
    (Echo.construct "" "").echo_repeat "Test" 3 "-" =
      (.ok ("" ++ joinSep "-" (List.replicate (Int.toNat 3) "Test") ++ ""),
       { pre := "", suffix := "",
         history := ["" ++ joinSep "-" (List.replicate (Int.toNat 3) "Test")
            ++ ""] }) ∧
    (Echo.construct "p" "q").echo_repeat "Test" 0 "-" =
      (.ok ("p" ++ "" ++ "q"),
       { pre := "p", suffix := "q", history := ["p" ++ "" ++ "q"] }) :=
  ⟨(echo_repeat_nonneg (Echo.construct "" "") "Test" 3 "-" (by decide)).1,
   (echo_repeat_nonneg (Echo.construct "p" "q") "Test" 0 "-"
      (by decide)).2 rfl⟩

/-- C4: a negative repetition count makes `echo_repeat` raise
`ValueError` synchronously, producing no result and leaving the
engine (history included) unchanged. -/
theorem echo_repeat_neg (e : Echo) (text : String) (times : Int)
    (sep : String) (h : times < 0) :
    e.echo_repeat text times sep =
      (.error "Repetition count must be non-negative", e) := by
  simp [Echo.echo_repeat, h]

/-- C4 witness: `echoRepeat("Test", -1, " ")` fails, state intact. -/
theorem echo_repeat_neg_witness :
    (Echo.construct "" "").echo_repeat "Test" (-1) " " =
      (.error "Repetition count must be non-negative",
       Echo.construct "" "") :=
  echo_repeat_neg (Echo.construct "" "") "Test" (-1) " " (by decide)

/-- C5: sequence input is joined with single spaces, absent elements
rendered as the literal "None", wrapped in prefix/suffix; concretely
`echo(["Hello","World","Test"])` gives "Hello World Test" with empty
affixes. -/
theorem echo_list_join (e : Echo) (items : List (Option String))
    (b : Bool) :
    (e.echo (.list items) b).1 =
      e.pre ++ joinSep " " (items.map fun o =>
        match o with
        | some s => s
        | none => "None") ++ e.suffix ∧
    ((Echo.construct "" "").echo
        (.list [some "Hello", some "World", some "Test"]) true).1
      = "Hello World Test" := by
  constructor
  · rfl
  · rfl

/-- C6: `echo` with storage off returns the wrapped string and leaves
the engine — prefix, suffix and history — exactly as it was. -/
theorem echo_no_record (e : Echo) (s : String) :
    e.echo (.str s) false = (e.pre ++ s ++ e.suffix, e) := by
  rfl

/-- C7: each derived transform is exactly `echo` of the transformed
text with storage requested, and each appends its own return value to
the history. -/
theorem derived_transforms_spec (e : Echo) (text : String) :
    e.echo_upper text = e.echo (.str text.toUpper) true ∧
    e.echo_lower text = e.echo (.str text.toLower) true ∧
    e.echo_reverse text = e.echo (.str (pyReverse text)) true ∧
    (e.echo_upper text).2.history = e.history ++ [(e.echo_upper text).1] ∧
    (e.echo_lower text).2.history = e.history ++ [(e.echo_lower text).1] ∧
    (e.echo_reverse text).2.history
      = e.history ++ [(e.echo_reverse text).1] := by
  refine ⟨rfl, rfl, rfl, ?_, ?_, ?_⟩ <;>
    simp [Echo.echo_upper, Echo.echo_lower, Echo.echo_reverse, Echo.echo]

/-- C8: the code-point reversal used by `echo_reverse` is an
involution: reversing the inner text twice returns the original. -/
theorem reverse_involutive (e : Echo) (s : String) :
    pyReverse (pyReverse s) = s ∧
    e.echo_reverse (pyReverse s) = e.echo (.str s) true := by
  have h : pyReverse (pyReverse s) = s := by
    cases s with
    | mk data => simp [pyReverse]
  exact ⟨h, by rw [Echo.echo_reverse, h]⟩

/-- C9: the CLI with no arguments prints the usage line and exits 1;
with arguments it prints their space-join echoed through a
default-configured engine and exits 0. -/
theorem main_cli_spec (args : List String) :
    (args = [] → mainCli args = (["Usage: echo.py <text>"], 1)) ∧
    (args ≠ [] → mainCli args = ([joinSep " " args], 0)) := by
  constructor
  · intro h
    simp [mainCli, h]
  · intro h
    simp [mainCli, h, Echo.construct, Echo.echo]

/-- C9 witness: the empty call and a two-argument call. -/
theorem main_cli_spec_witness :
    mainCli [] = (["Usage: echo.py <text>"], 1) ∧
    mainCli ["Hello", "World"] = ([joinSep " " ["Hello", "World"]], 0) :=
  ⟨(main_cli_spec []).1 rfl,
   (main_cli_spec ["Hello", "World"]).2 (by simp)⟩

/-- C10: a repetition count of one makes the separator irrelevant:
`echo_repeat text 1 sep` behaves exactly like `echo text`. -/
theorem echo_repeat_one (e : Echo) (text sep : String) :
    e.echo_repeat text 1 sep =
      (.ok (e.echo (.str text) true).1, (e.echo (.str text) true).2) := by
  rfl
